import Mathlib

/-!
Verification development for the Aurum_Solace core (event store, streak
calculator, suggestion engine, text-state inference, actuation planner).

The Python source (`app/main.py`, `app/storage.py`) is shallowly embedded:
pure functions become Lean functions; the SQLite-backed store becomes an
explicit `Store` value threaded through operations; calendar dates are
modelled as integers (days); the float confidence constants 0.4 / 0.7 are
modelled as rationals (they are only ever assigned and compared, never
computed with).
-/

namespace Aurum

/-- The apostrophe character, used inside several literal message strings. -/
def apos : String := String.singleton (Char.ofNat 39)

/-- Embedding of Python `str.lower()` (ASCII case folding, which is all the
source's inputs and literals need). -/
def pyLower (s : String) : String := ⟨s.data.map Char.toLower⟩

/-- Whitespace test used by Python `str.strip()`. -/
def pySpace (c : Char) : Bool :=
  c = ' ' || c = '\t' || c = '\n' || c = '\x0d' || c = '\x0b' || c = '\x0c'

/-- Embedding of Python `str.strip()`: drop whitespace from both ends. -/
def pyStrip (s : String) : String :=
  ⟨((s.data.dropWhile pySpace).reverse.dropWhile pySpace).reverse⟩

/-- `front w t`: `w` is a leading segment of `t` (character lists). -/
def front : List Char → List Char → Bool
  | [], _ => true
  | _ :: _, [] => false
  | a :: as, b :: bs => a = b && front as bs

/-- `occurs w t`: `w` occurs contiguously inside `t` — the embedding of
Python `w in t` on strings. -/
def occurs (w : List Char) : List Char → Bool
  | [] => front w []
  | t@(_ :: rest) => front w t || occurs w rest

/-- Python `any(word in t for word in ws)`. -/
def containsAny (t : String) (ws : List String) : Bool :=
  ws.any (fun w => occurs w.data t.data)

/-- Embedding of `suggest_action` from `app/main.py`:
lowercase the three inputs, then evaluate the ordered rule chain,
first match wins, returning the exact literal message strings. -/
def suggest_action (mood energy focus : String) : String :=
  let mood := pyLower mood
  let energy := pyLower energy
  let focus := pyLower focus
  if mood = "low" ∧ energy = "low" then
    "You seem low today — pick the smallest act of self-care you can manage: a glass of water, a stretch, or one deep breath."
  else if mood = "low" ∧ (energy = "medium" ∨ energy = "high") then
    "Energy is present even if mood is low — try one tiny 5-minute task to regain control."
  else if mood = "neutral" ∧ focus = "drifting" then
    "You" ++ apos ++ "re steady but scattered — choose a single priority and work on it for 10 focused minutes."
  else if mood = "good" ∧ (energy = "medium" ∨ energy = "high") then
    "Great conditions today — move something meaningful forward with 20 minutes of deep focus."
  else
    "Start small — what is one simple action Future You would thank you for?"

/-- Result record of `infer_state_from_text`.  The Python function returns a
dict with these four keys; `confidence` is one of the literal constants
0.4 / 0.7, modelled as a rational. -/
structure InferredState where
  mood : String
  energy : String
  focus : String
  confidence : ℚ
deriving DecidableEq, Repr

/-- Low-mood keyword set of `infer_state_from_text`. -/
def lowMoodWords : List String :=
  ["sad", "down", "depressed", "empty", "tired of", "overwhelmed"]

/-- Good-mood keyword set of `infer_state_from_text`. -/
def goodMoodWords : List String :=
  ["good", "great", "excited", "happy", "pumped", "optimistic"]

/-- Low-energy keyword set of `infer_state_from_text`. -/
def lowEnergyWords : List String :=
  ["exhausted", "drained", "tired", "low energy", "wiped"]

/-- High-energy keyword set of `infer_state_from_text`. -/
def highEnergyWords : List String :=
  ["wired", "energized", "hyped", "ready to go", "full of energy"]

/-- Drifting-focus keyword set of `infer_state_from_text`. -/
def driftingWords : List String :=
  ["scattered", "can" ++ apos ++ "t focus", "distracted", "all over the place"]

/-- Locked-in-focus keyword set of `infer_state_from_text`. -/
def lockedInWords : List String :=
  ["locked in", "dialed in", "focused", "in the zone"]

/-- Embedding of `infer_state_from_text` from `app/main.py`: lowercase the
text, start from the defaults `neutral / medium / ok / 0.4`, then apply the
three independent keyword rule pairs (low set checked before its
counterpart on each axis); only the mood rules touch `confidence`. -/
def infer_state_from_text (text : String) : InferredState :=
  let t := pyLower text
  let mc : String × ℚ :=
    if containsAny t lowMoodWords then ("low", 0.7)
    else if containsAny t goodMoodWords then ("good", 0.7)
    else ("neutral", 0.4)
  let energy : String :=
    if containsAny t lowEnergyWords then "low"
    else if containsAny t highEnergyWords then "high"
    else "medium"
  let focus : String :=
    if containsAny t driftingWords then "drifting"
    else if containsAny t lockedInWords then "locked-in"
    else "ok"
  ⟨mc.1, energy, focus, mc.2⟩

/-- The free-form text "I'm exhausted and sad" used as a probe by the spec. -/
def exhaustedSadText : String := "I" ++ apos ++ "m exhausted and sad"

/-! ## StreakCalculator (`get_action_streak` in `app/storage.py`)

Calendar dates are modelled as integers (days); `none` stands for a row
whose timestamp fails to parse (`datetime.fromisoformat` raising). -/

/-- Return value of `get_action_streak`. -/
structure StreakResult where
  streak_days : Nat
  last_action_date : Option ℤ
deriving DecidableEq, Repr

/-- The `unique_dates` / `seen` loop of `get_action_streak`: walk the rows
in order, skip unparseable timestamps, and keep the first occurrence of
each date. -/
def collectDatesAux (seen : List ℤ) : List (Option ℤ) → List ℤ
  | [] => []
  | none :: rest => collectDatesAux seen rest
  | some d :: rest =>
    if d ∈ seen then collectDatesAux seen rest
    else d :: collectDatesAux (d :: seen) rest

/-- Unique successful-action dates in first-seen order. -/
def collectDates (rows : List (Option ℤ)) : List ℤ := collectDatesAux [] rows

/-- `unique_dates.sort(reverse=True)`: sort descending. -/
def sortDesc (l : List ℤ) : List ℤ := List.insertionSort (· ≥ ·) l

/-- The backward walk of `get_action_streak`: match the expected date and
extend, skip dates beyond the expected one, stop at the first gap. -/
def walk : ℤ → Nat → List ℤ → Nat
  | _, streak, [] => streak
  | expected, streak, d :: rest =>
    if d = expected then walk (expected - 1) (streak + 1) rest
    else if expected < d then walk expected streak rest
    else streak

/-- One row of the action log: the parsed calendar date of its timestamp
(`none` when unparseable) and the success flag. -/
structure ActionRow where
  date : Option ℤ
  success : Bool
deriving DecidableEq, Repr

/-- A mood check-in as read back from the store (timestamp elided: the
planner only consumes the three state fields). -/
structure MoodEntry where
  mood : String
  energy : String
  focus : String
deriving DecidableEq, Repr

/-- Commands for the lights device. -/
structure LightsCmd where
  scene : String
  color_temp_k : Nat
  brightness : Nat
  effect : String
  duration_s : Nat
deriving DecidableEq, Repr

/-- Commands for the speaker device. -/
structure SpeakerCmd where
  soundscape : String
  volume : Nat
  fade_in_s : Nat
  duration_s : Nat
deriving DecidableEq, Repr

/-- Commands for the robot device. -/
structure RobotCmd where
  script : String
  tone : String
  line : Option String
  task : Option String
  timer_s : Option Nat
deriving DecidableEq, Repr

/-- The three command structs of an actuation plan. -/
structure Plan where
  lights : LightsCmd
  speaker : SpeakerCmd
  robot : RobotCmd
deriving DecidableEq, Repr

/-- A persisted actuation decision (§3 ActuationRecord). -/
structure ActuationRecord where
  mood : String
  energy : String
  focus : String
  streak_days : Nat
  lights : LightsCmd
  speaker : SpeakerCmd
  robot : RobotCmd
  requested_device : Option String
deriving DecidableEq, Repr

/-- The persistent store: mood log and action log (both newest first, as
the `ORDER BY timestamp DESC` reads return them) plus the actuation log. -/
structure Store where
  mood_history : List MoodEntry
  action_logs : List ActionRow
  actuations : List ActuationRecord
deriving DecidableEq, Repr

/-- A store with no entries at all. -/
def emptyStore : Store := ⟨[], [], []⟩

/-- The `WHERE success = 1 ORDER BY timestamp DESC` query feeding
`get_action_streak`: dates of the successful rows, newest first. -/
def successDates (st : Store) : List (Option ℤ) :=
  (st.action_logs.filter fun r => r.success).map fun r => r.date

/-- Body of `get_action_streak` as a function of the queried rows: collect
unique dates, sort them descending, walk backward from `today`;
`last_action_date` is the head of the *sorted* list (the maximum date). -/
def streakOfRows (today : ℤ) (rows : List (Option ℤ)) : StreakResult :=
  if rows.isEmpty then ⟨0, none⟩
  else
    let u := collectDates rows
    if u.isEmpty then ⟨0, none⟩
    else
      let sorted := sortDesc u
      ⟨walk today 0 sorted, sorted.head?⟩

/-- Embedding of `get_action_streak` from `app/storage.py`: run the
collect/sort/walk pipeline on the successful rows, newest first. -/
def get_action_streak (today : ℤ) (st : Store) : StreakResult :=
  streakOfRows today (successDates st)

/-- The canonical gap-free descending run `[e, e-1, …, e-(n-1)]`
(proof-side construct used to reason about consecutive-day histories). -/
def descRun (e : ℤ) : Nat → List ℤ
  | 0 => []
  | n + 1 => e :: descRun (e - 1) n

/-! ## ActuationPlanner (`actuate` in `app/main.py`) -/

/-- Plan computation of `actuate` ("Ground State", mood/energy rule,
streak nuance): start from the fixed baseline, replace all three structs
wholesale when `mood == "low" and energy == "low"`, then append the
`_protect_streak` suffix to the robot script when the streak is ≥ 3. -/
def computePlan (mood energy : String) (streak_days : Nat) : Plan :=
  let base : Plan :=
    ⟨⟨"neutral", 2700, 45, "steady", 1800⟩,
     ⟨"silence", 20, 5, 0⟩,
     ⟨"idle_presence", "calm", none, none, none⟩⟩
  let p : Plan :=
    if mood = "low" ∧ energy = "low" then
      ⟨⟨"ember", 2200, 20, "breathe", 900⟩,
       ⟨"rain_soft", 22, 8, 600⟩,
       ⟨"micro_step_support", "soft",
        some "We go small. Stand up. Drink water. One minute.",
        some "drink_water", some 60⟩⟩
    else base
  if 3 ≤ streak_days then
    { p with robot := { p.robot with script := p.robot.script ++ "_protect_streak" } }
  else p

/-- Modelled from the spec: `insert_actuation` is declared by §4.1/§6 and
called by the planner, but its implementation is absent from the sources;
per §3 it appends one ActuationRecord to the append-only actuation log. -/
def insert_actuation (st : Store) (record : ActuationRecord) : Store :=
  { st with actuations := st.actuations ++ [record] }

/-- The `commands` part of an actuation response: the full plan, or the
single struct selected by a valid device filter. -/
inductive Commands where
  | all (lights : LightsCmd) (speaker : SpeakerCmd) (robot : RobotCmd)
  | lightsOnly (lights : LightsCmd)
  | speakerOnly (speaker : SpeakerCmd)
  | robotOnly (robot : RobotCmd)
deriving DecidableEq, Repr

/-- Observable outcome of `actuate`: a command set or the unknown-device
error payload. -/
inductive ActuateResult where
  | ok (commands : Commands)
  | err (msg : String)
deriving DecidableEq, Repr

/-- Latest mood state with the planner's fallbacks `neutral/medium/ok`. -/
def latestState (st : Store) : String × String × String :=
  match st.mood_history.head? with
  | some l => (l.mood, l.energy, l.focus)
  | none => ("neutral", "medium", "ok")

/-- The ActuationRecord `actuate` persists: latest state, streak, computed
plan and the raw requested device. -/
def plannedRecord (today : ℤ) (st : Store) (device : Option String) : ActuationRecord :=
  let s := latestState st
  let streak_days := (get_action_streak today st).streak_days
  let plan := computePlan s.1 s.2.1 streak_days
  ⟨s.1, s.2.1, s.2.2, streak_days, plan.lights, plan.speaker, plan.robot, device⟩

/-- Embedding of the `actuate` endpoint body: compute the plan, persist it
unconditionally via `insert_actuation`, then apply the device filter.
Python's `if device:` is false for both `None` and the empty string; a
non-empty device is lowercased and stripped before the key lookup, and an
unmatched key yields the error message naming the raw value. -/
def actuate (today : ℤ) (st : Store) (device : Option String) : Store × ActuateResult :=
  let record := plannedRecord today st device
  let st' := insert_actuation st record
  let result : ActuateResult :=
    match device with
    | none => .ok (.all record.lights record.speaker record.robot)
    | some dev =>
      if dev = "" then .ok (.all record.lights record.speaker record.robot)
      else
        let d := pyStrip (pyLower dev)
        if d = "lights" then .ok (.lightsOnly record.lights)
        else if d = "speaker" then .ok (.speakerOnly record.speaker)
        else if d = "robot" then .ok (.robotOnly record.robot)
        else .err ("Unknown device " ++ apos ++ dev ++ apos
                    ++ ". Use lights, speaker, or robot.")
  (st', result)

/-! ## Streak-aware suggestion composition (`coach` and `checkin_text`) -/

/-- The trailing clause selected by `coach`; note that every branch's
literal begins with a space character. -/
def coachExtra (streak_days : Nat) : String :=
  if 3 ≤ streak_days then
    " You" ++ apos ++ "re on a " ++ toString streak_days
      ++ "-day streak. Protect it with one small action today."
  else if streak_days = 1 ∨ streak_days = 2 then
    " Good start — you" ++ apos ++ "re at " ++ toString streak_days
      ++ " day of action. Let" ++ apos ++ "s keep it going."
  else
    " Let" ++ apos ++ "s just focus on winning today with one meaningful action."

/-- The trailing clause selected by `checkin_text`; identical literals, with
the middle guard written as `streak_days in (1, 2)`. -/
def checkinExtra (streak_days : Nat) : String :=
  if 3 ≤ streak_days then
    " You" ++ apos ++ "re on a " ++ toString streak_days
      ++ "-day streak. Protect it with one small action today."
  else if streak_days ∈ ([1, 2] : List Nat) then
    " Good start — you" ++ apos ++ "re at " ++ toString streak_days
      ++ " day of action. Let" ++ apos ++ "s keep it going."
  else
    " Let" ++ apos ++ "s just focus on winning today with one meaningful action."

/-- `suggestion = f"{base_suggestion} {extra}"` in `coach`. -/
def coachSuggestion (mood energy focus : String) (streak_days : Nat) : String :=
  suggest_action mood energy focus ++ " " ++ coachExtra streak_days

/-- `suggestion = f"{base_suggestion} {extra}"` in `checkin_text`. -/
def checkinSuggestion (mood energy focus : String) (streak_days : Nat) : String :=
  suggest_action mood energy focus ++ " " ++ checkinExtra streak_days

/-! ## Summary counts (`get_summary` / `get_counts` in `app/storage.py`) -/

/-- Return value of `get_summary`: the two table counts. -/
structure Summary where
  mood_entries : Nat
  action_entries : Nat
deriving DecidableEq, Repr

/-- Embedding of `get_summary`: `COUNT(*)` over each of the two logs. -/
def get_summary (st : Store) : Summary :=
  ⟨st.mood_history.length, st.action_logs.length⟩

/-- Embedding of `get_counts`: re-reads `get_summary` and wraps each count
in `int(...)`, which is the identity on the already-integral counts. -/
def get_counts (st : Store) : Summary :=
  let summary := get_summary st
  ⟨summary.mood_entries, summary.action_entries⟩

end Aurum

/-- C5: `suggest_action` evaluated at the three probe inputs of the spec
returns exactly the self-care, deep-focus and generic fallback strings. -/
theorem c5_suggest_action_probes :
    Aurum.suggest_action "low" "low" "drifting"
      = "You seem low today — pick the smallest act of self-care you can manage: a glass of water, a stretch, or one deep breath."
    ∧ Aurum.suggest_action "good" "high" "locked-in"
      = "Great conditions today — move something meaningful forward with 20 minutes of deep focus."
    ∧ Aurum.suggest_action "neutral" "medium" "ok"
      = "Start small — what is one simple action Future You would thank you for?" := by
  refine ⟨?_, ?_, ?_⟩ <;> decide

/-- C7: `infer_state_from_text` — confidence is determined by the mood
keyword tests alone (energy/focus matches never alter it), a low-mood match
forces `mood = "low"` with confidence 0.7 (so the low set takes precedence
over the good set), no keyword match anywhere returns the defaults
`neutral / medium / ok / 0.4`, and the probe text "I'm exhausted and sad"
yields `mood=low, energy=low, confidence=0.7`. -/
theorem c7_infer_state (text : String) :
    ((Aurum.infer_state_from_text text).confidence =
      (if Aurum.containsAny (Aurum.pyLower text) Aurum.lowMoodWords then (0.7 : ℚ)
       else if Aurum.containsAny (Aurum.pyLower text) Aurum.goodMoodWords then (0.7 : ℚ)
       else (0.4 : ℚ)))
    ∧ (Aurum.containsAny (Aurum.pyLower text) Aurum.lowMoodWords = true →
        (Aurum.infer_state_from_text text).mood = "low"
        ∧ (Aurum.infer_state_from_text text).confidence = 0.7)
    ∧ (Aurum.containsAny (Aurum.pyLower text) Aurum.lowMoodWords = false →
       Aurum.containsAny (Aurum.pyLower text) Aurum.goodMoodWords = false →
       Aurum.containsAny (Aurum.pyLower text) Aurum.lowEnergyWords = false →
       Aurum.containsAny (Aurum.pyLower text) Aurum.highEnergyWords = false →
       Aurum.containsAny (Aurum.pyLower text) Aurum.driftingWords = false →
       Aurum.containsAny (Aurum.pyLower text) Aurum.lockedInWords = false →
        Aurum.infer_state_from_text text = ⟨"neutral", "medium", "ok", 0.4⟩)
    ∧ Aurum.infer_state_from_text Aurum.exhaustedSadText = ⟨"low", "low", "ok", 0.7⟩ := by
  refine ⟨?_, ?_, ?_, rfl⟩
  · simp only [Aurum.infer_state_from_text]
    cases hl : Aurum.containsAny (Aurum.pyLower text) Aurum.lowMoodWords <;>
      cases hg : Aurum.containsAny (Aurum.pyLower text) Aurum.goodMoodWords <;> simp [hl, hg]
  · intro hl
    simp only [Aurum.infer_state_from_text, hl]
    exact ⟨rfl, rfl⟩
  · intro hl hg hle hhe hdr hli
    simp only [Aurum.infer_state_from_text, hl, hg, hle, hhe, hdr, hli]
    rfl

/-- C7 witness: the general theorem instantiated at the probe text (a
low-mood keyword match) and at the keyword-free text "meh" (defaults). -/
theorem c7_infer_state_witness :
    ((Aurum.infer_state_from_text Aurum.exhaustedSadText).mood = "low"
      ∧ (Aurum.infer_state_from_text Aurum.exhaustedSadText).confidence = 0.7)
    ∧ Aurum.infer_state_from_text "meh" = ⟨"neutral", "medium", "ok", 0.4⟩ :=
  ⟨(c7_infer_state Aurum.exhaustedSadText).2.1 (by decide),
   (c7_infer_state "meh").2.2.1 (by decide) (by decide) (by decide) (by decide)
     (by decide) (by decide)⟩

/-- C9: the confidence returned by `infer_state_from_text` is always exactly
0.4 or exactly 0.7, and it is 0.7 precisely when some low-mood or good-mood
keyword occurs in the lowercased text. -/
theorem c9_confidence_two_valued (text : String) :
    ((Aurum.infer_state_from_text text).confidence = 0.4
      ∨ (Aurum.infer_state_from_text text).confidence = 0.7)
    ∧ ((Aurum.infer_state_from_text text).confidence = 0.7 ↔
        (Aurum.containsAny (Aurum.pyLower text) Aurum.lowMoodWords = true
          ∨ Aurum.containsAny (Aurum.pyLower text) Aurum.goodMoodWords = true)) := by
  simp only [Aurum.infer_state_from_text]
  cases hl : Aurum.containsAny (Aurum.pyLower text) Aurum.lowMoodWords <;>
    cases hg : Aurum.containsAny (Aurum.pyLower text) Aurum.goodMoodWords <;>
      (simp [hl, hg]; try norm_num)

/-- C1 counterexample: the claim fails for the supplied empty-string device.
After lowercasing and trimming, `""` matches none of the three keys, yet the
call returns the full command set instead of an unknown-device error
(Python's `if device:` treats the empty string as absent). -/
theorem c1_empty_device_counterexample :
    (Aurum.pyStrip (Aurum.pyLower "") ≠ "lights"
      ∧ Aurum.pyStrip (Aurum.pyLower "") ≠ "speaker"
      ∧ Aurum.pyStrip (Aurum.pyLower "") ≠ "robot")
    ∧ (Aurum.actuate 0 Aurum.emptyStore (some "")).2
        = Aurum.ActuateResult.ok (Aurum.Commands.all
            ⟨"neutral", 2700, 45, "steady", 1800⟩
            ⟨"silence", 20, 5, 0⟩
            ⟨"idle_presence", "calm", none, none, none⟩) := by
  decide

/-- C1 (amended): for every supplied *non-empty* requested device that does
not match a key after lowercasing and trimming, the full computed plan is
still persisted as exactly one new ActuationRecord, and the call returns
the unknown-device error naming the raw value and the valid set. -/
theorem c1_unknown_device_persists (today : ℤ) (st : Aurum.Store) (dev : String)
    (hne : dev ≠ "")
    (h1 : Aurum.pyStrip (Aurum.pyLower dev) ≠ "lights")
    (h2 : Aurum.pyStrip (Aurum.pyLower dev) ≠ "speaker")
    (h3 : Aurum.pyStrip (Aurum.pyLower dev) ≠ "robot") :
    (Aurum.actuate today st (some dev)).1.actuations
        = st.actuations ++ [Aurum.plannedRecord today st (some dev)]
    ∧ (Aurum.actuate today st (some dev)).2
        = Aurum.ActuateResult.err ("Unknown device " ++ Aurum.apos ++ dev
            ++ Aurum.apos ++ ". Use lights, speaker, or robot.") := by
  constructor
  · rfl
  · simp only [Aurum.actuate]
    rw [if_neg hne, if_neg h1, if_neg h2, if_neg h3]

/-- C1 witness: the amended theorem applied to the spec's probe device
"lamp" on the empty store. -/
theorem c1_unknown_device_witness :
    (Aurum.actuate 0 Aurum.emptyStore (some "lamp")).1.actuations
        = Aurum.emptyStore.actuations ++ [Aurum.plannedRecord 0 Aurum.emptyStore (some "lamp")]
    ∧ (Aurum.actuate 0 Aurum.emptyStore (some "lamp")).2
        = Aurum.ActuateResult.err ("Unknown device " ++ Aurum.apos ++ "lamp"
            ++ Aurum.apos ++ ". Use lights, speaker, or robot.") :=
  c1_unknown_device_persists 0 Aurum.emptyStore "lamp"
    (by decide) (by decide) (by decide) (by decide)

/-- C6: when the latest state is not (low mood, low energy) the mood/energy
rule leaves the fixed neutral baseline in place; when it is, all three
structs are replaced wholesale by the support preset; and in either case a
streak of ≥ 3 appends `_protect_streak` to the chosen robot script, while a
shorter streak leaves the plan exactly as the rule produced it. -/
theorem c6_plan_presets (mood energy : String) (s : Nat) :
    (¬(mood = "low" ∧ energy = "low") → s < 3 →
      Aurum.computePlan mood energy s =
        ⟨⟨"neutral", 2700, 45, "steady", 1800⟩,
         ⟨"silence", 20, 5, 0⟩,
         ⟨"idle_presence", "calm", none, none, none⟩⟩)
    ∧ (¬(mood = "low" ∧ energy = "low") → 3 ≤ s →
      Aurum.computePlan mood energy s =
        ⟨⟨"neutral", 2700, 45, "steady", 1800⟩,
         ⟨"silence", 20, 5, 0⟩,
         ⟨"idle_presence_protect_streak", "calm", none, none, none⟩⟩)
    ∧ (mood = "low" → energy = "low" → s < 3 →
      Aurum.computePlan mood energy s =
        ⟨⟨"ember", 2200, 20, "breathe", 900⟩,
         ⟨"rain_soft", 22, 8, 600⟩,
         ⟨"micro_step_support", "soft",
          some "We go small. Stand up. Drink water. One minute.",
          some "drink_water", some 60⟩⟩)
    ∧ (mood = "low" → energy = "low" → 3 ≤ s →
      Aurum.computePlan mood energy s =
        ⟨⟨"ember", 2200, 20, "breathe", 900⟩,
         ⟨"rain_soft", 22, 8, 600⟩,
         ⟨"micro_step_support_protect_streak", "soft",
          some "We go small. Stand up. Drink water. One minute.",
          some "drink_water", some 60⟩⟩) := by
  refine ⟨fun h hs => ?_, fun h hs => ?_, fun hm he hs => ?_, fun hm he hs => ?_⟩ <;>
    simp only [Aurum.computePlan]
  · rw [if_neg (show ¬(3 ≤ s) from by omega), if_neg h]
  · rw [if_pos hs, if_neg h]; rfl
  · rw [if_neg (show ¬(3 ≤ s) from by omega), if_pos ⟨hm, he⟩]
  · rw [if_pos hs, if_pos ⟨hm, he⟩]; rfl

/-- C6 witness: the theorem applied at a neutral state with streak 0 and at
the low/low state with streak 5. -/
theorem c6_plan_presets_witness :
    Aurum.computePlan "neutral" "medium" 0 =
      ⟨⟨"neutral", 2700, 45, "steady", 1800⟩,
       ⟨"silence", 20, 5, 0⟩,
       ⟨"idle_presence", "calm", none, none, none⟩⟩
    ∧ Aurum.computePlan "low" "low" 5 =
      ⟨⟨"ember", 2200, 20, "breathe", 900⟩,
       ⟨"rain_soft", 22, 8, 600⟩,
       ⟨"micro_step_support_protect_streak", "soft",
        some "We go small. Stand up. Drink water. One minute.",
        some "drink_water", some 60⟩⟩ :=
  ⟨(c6_plan_presets "neutral" "medium" 0).1 (by decide) (by decide),
   (c6_plan_presets "low" "low" 5).2.2.2 rfl rfl (by decide)⟩

/-- C10: the lights and speaker structs of a computed plan do not depend on
the streak value, and among the robot fields only the script can differ
with streak. -/
theorem c10_streak_frame (mood energy : String) (s₁ s₂ : Nat) :
    (Aurum.computePlan mood energy s₁).lights = (Aurum.computePlan mood energy s₂).lights
    ∧ (Aurum.computePlan mood energy s₁).speaker = (Aurum.computePlan mood energy s₂).speaker
    ∧ (Aurum.computePlan mood energy s₁).robot.tone = (Aurum.computePlan mood energy s₂).robot.tone
    ∧ (Aurum.computePlan mood energy s₁).robot.line = (Aurum.computePlan mood energy s₂).robot.line
    ∧ (Aurum.computePlan mood energy s₁).robot.task = (Aurum.computePlan mood energy s₂).robot.task
    ∧ (Aurum.computePlan mood energy s₁).robot.timer_s
        = (Aurum.computePlan mood energy s₂).robot.timer_s := by
  by_cases hm : mood = "low" ∧ energy = "low" <;>
    by_cases h1 : 3 ≤ s₁ <;> by_cases h2 : 3 ≤ s₂ <;>
      simp [Aurum.computePlan, hm, h1, h2]

/-- C4 counterexample: at streak 0 with a neutral latest state, the composed
coaching suggestion is not the base suggestion and the win-today clause
joined by a single space — the join contributes one space and the clause
literal itself starts with another, so two spaces separate them. -/
theorem c4_single_space_counterexample :
    Aurum.coachSuggestion "neutral" "medium" "ok" 0
      ≠ "Start small — what is one simple action Future You would thank you for? Let"
        ++ Aurum.apos ++ "s just focus on winning today with one meaningful action."
    ∧ Aurum.coachSuggestion "neutral" "medium" "ok" 0
      = "Start small — what is one simple action Future You would thank you for?  Let"
        ++ Aurum.apos ++ "s just focus on winning today with one meaningful action." := by
  refine ⟨by decide, by decide⟩

/-- C4 (amended): the coaching and auto-checkin flows compose identical
streak-aware suggestions; the clause is selected by streak length as the
claim states (protect-the-streak for ≥ 3, encouragement for 1–2, win-today
otherwise), but the base suggestion and the clause body are separated by
two spaces: the format-string space plus the clause's own leading space. -/
theorem c4_streak_clause (m e f : String) (s : Nat) :
    Aurum.coachSuggestion m e f s = Aurum.checkinSuggestion m e f s
    ∧ (3 ≤ s → Aurum.coachSuggestion m e f s
        = Aurum.suggest_action m e f ++ (" " ++ (" " ++ ("You" ++ Aurum.apos ++ "re on a "
            ++ toString s ++ "-day streak. Protect it with one small action today."))))
    ∧ ((s = 1 ∨ s = 2) → Aurum.coachSuggestion m e f s
        = Aurum.suggest_action m e f ++ (" " ++ (" " ++ ("Good start — you" ++ Aurum.apos
            ++ "re at " ++ toString s ++ " day of action. Let" ++ Aurum.apos
            ++ "s keep it going."))))
    ∧ (s = 0 → Aurum.coachSuggestion m e f s
        = Aurum.suggest_action m e f ++ (" " ++ (" " ++ ("Let" ++ Aurum.apos
            ++ "s just focus on winning today with one meaningful action.")))) := by
  refine ⟨?_, fun hs => ?_, fun hs => ?_, fun hs => ?_⟩
  · by_cases h3 : 3 ≤ s
    · simp only [Aurum.coachSuggestion, Aurum.checkinSuggestion, Aurum.coachExtra,
        Aurum.checkinExtra]
      rw [if_pos h3, if_pos h3]
    · by_cases h12 : s = 1 ∨ s = 2
      · have hmem : s ∈ ([1, 2] : List Nat) := by rcases h12 with rfl | rfl <;> decide
        simp only [Aurum.coachSuggestion, Aurum.checkinSuggestion, Aurum.coachExtra,
          Aurum.checkinExtra]
        rw [if_neg h3, if_neg h3, if_pos h12, if_pos hmem]
      · have hmem : s ∉ ([1, 2] : List Nat) := by
          intro hm
          exact h12 (by simpa using hm)
        simp only [Aurum.coachSuggestion, Aurum.checkinSuggestion, Aurum.coachExtra,
          Aurum.checkinExtra]
        rw [if_neg h3, if_neg h3, if_neg h12, if_neg hmem]
  · simp only [Aurum.coachSuggestion, Aurum.coachExtra]
    rw [if_pos hs, String.append_assoc]
    rfl
  · rcases hs with rfl | rfl <;>
      (simp only [Aurum.coachSuggestion, Aurum.coachExtra]
       rw [if_neg (by decide), if_pos (by decide), String.append_assoc]
       rfl)
  · subst hs
    simp only [Aurum.coachSuggestion, Aurum.coachExtra]
    rw [if_neg (by decide), if_neg (by decide), String.append_assoc]
    rfl

/-- C4 witness: the amended theorem applied at streak 4, streak 1 and
streak 0 for a neutral base state. -/
theorem c4_streak_clause_witness :
    Aurum.coachSuggestion "neutral" "medium" "ok" 4
      = Aurum.suggest_action "neutral" "medium" "ok" ++ (" " ++ (" " ++ ("You" ++ Aurum.apos
          ++ "re on a " ++ toString 4 ++ "-day streak. Protect it with one small action today.")))
    ∧ Aurum.coachSuggestion "neutral" "medium" "ok" 1
      = Aurum.suggest_action "neutral" "medium" "ok" ++ (" " ++ (" " ++ ("Good start — you"
          ++ Aurum.apos ++ "re at " ++ toString 1 ++ " day of action. Let" ++ Aurum.apos
          ++ "s keep it going.")))
    ∧ Aurum.coachSuggestion "neutral" "medium" "ok" 0
      = Aurum.suggest_action "neutral" "medium" "ok" ++ (" " ++ (" " ++ ("Let" ++ Aurum.apos
          ++ "s just focus on winning today with one meaningful action."))) :=
  ⟨(c4_streak_clause "neutral" "medium" "ok" 4).2.1 (by decide),
   (c4_streak_clause "neutral" "medium" "ok" 1).2.2.1 (Or.inl rfl),
   (c4_streak_clause "neutral" "medium" "ok" 0).2.2.2 rfl⟩

/-- C8: `get_counts` returns exactly the counts of `get_summary` on every
store state — the two operations are semantically identical. -/
theorem c8_counts_eq_summary (st : Aurum.Store) :
    Aurum.get_counts st = Aurum.get_summary st := rfl

theorem collect_seen_ext :
    ∀ (rows : List (Option ℤ)) (s₁ s₂ : List ℤ), (∀ x, x ∈ s₁ ↔ x ∈ s₂) →
      Aurum.collectDatesAux s₁ rows = Aurum.collectDatesAux s₂ rows := by
  intro rows
  induction rows with
  | nil => intro s₁ s₂ _; rfl
  | cons r rest ih =>
    intro s₁ s₂ h
    cases r with
    | none =>
      simp only [Aurum.collectDatesAux]
      exact ih s₁ s₂ h
    | some d =>
      simp only [Aurum.collectDatesAux]
      by_cases hd : d ∈ s₁
      · rw [if_pos hd, if_pos ((h d).1 hd)]
        exact ih s₁ s₂ h
      · rw [if_neg hd, if_neg (fun hc => hd ((h d).2 hc))]
        refine congrArg (d :: ·) (ih (d :: s₁) (d :: s₂) fun x => ?_)
        simp [h x]

theorem collect_mem :
    ∀ (rows : List (Option ℤ)) (seen : List ℤ) (x : ℤ),
      x ∈ Aurum.collectDatesAux seen rows ↔ (some x ∈ rows ∧ x ∉ seen) := by
  intro rows
  induction rows with
  | nil => intro seen x; simp [Aurum.collectDatesAux]
  | cons r rest ih =>
    intro seen x
    cases r with
    | none =>
      simp only [Aurum.collectDatesAux, List.mem_cons, ih]
      constructor
      · rintro ⟨hr, hs⟩; exact ⟨Or.inr hr, hs⟩
      · rintro ⟨hr | hr, hs⟩
        · exact absurd hr (by simp)
        · exact ⟨hr, hs⟩
    | some d =>
      simp only [Aurum.collectDatesAux]
      by_cases hd : d ∈ seen
      · rw [if_pos hd, ih seen x]
        simp only [List.mem_cons, Option.some.injEq]
        constructor
        · rintro ⟨hr, hs⟩; exact ⟨Or.inr hr, hs⟩
        · rintro ⟨rfl | hr, hs⟩
          · exact absurd hd hs
          · exact ⟨hr, hs⟩
      · rw [if_neg hd]
        simp only [List.mem_cons, Option.some.injEq, ih (d :: seen) x]
        constructor
        · rintro (rfl | ⟨hr, hs⟩)
          · exact ⟨Or.inl rfl, hd⟩
          · exact ⟨Or.inr hr, fun hc => hs (Or.inr hc)⟩
        · rintro ⟨rfl | hr, hs⟩
          · exact Or.inl rfl
          · by_cases hxd : x = d
            · exact Or.inl hxd
            · exact Or.inr ⟨hr, fun hc => hc.elim hxd hs⟩

theorem collect_nodup :
    ∀ (rows : List (Option ℤ)) (seen : List ℤ), (Aurum.collectDatesAux seen rows).Nodup := by
  intro rows
  induction rows with
  | nil => intro seen; simp [Aurum.collectDatesAux]
  | cons r rest ih =>
    intro seen
    cases r with
    | none => simpa only [Aurum.collectDatesAux] using ih seen
    | some d =>
      simp only [Aurum.collectDatesAux]
      by_cases hd : d ∈ seen
      · rw [if_pos hd]; exact ih seen
      · rw [if_neg hd]
        refine List.nodup_cons.2 ⟨fun hc => ?_, ih (d :: seen)⟩
        exact ((collect_mem rest (d :: seen) d).1 hc).2 (List.mem_cons_self _ _)

theorem collect_cons_seen :
    ∀ (rows : List (Option ℤ)) (a : ℤ) (seen : List ℤ),
      Aurum.collectDatesAux (a :: seen) rows = (Aurum.collectDatesAux seen rows).erase a := by
  intro rows
  induction rows with
  | nil => intro a seen; rfl
  | cons r rest ih =>
    intro a seen
    cases r with
    | none =>
      simp only [Aurum.collectDatesAux]
      exact ih a seen
    | some d =>
      by_cases hda : d = a
      · subst hda
        by_cases hd : d ∈ seen
        · simp only [Aurum.collectDatesAux]
          rw [if_pos (List.mem_cons_of_mem _ hd), if_pos hd]
          exact ih d seen
        · simp only [Aurum.collectDatesAux]
          rw [if_pos (List.mem_cons_self _ _), if_neg hd, List.erase_cons_head]
      · by_cases hd : d ∈ seen
        · simp only [Aurum.collectDatesAux]
          rw [if_pos (List.mem_cons_of_mem _ hd), if_pos hd]
          exact ih a seen
        · have hdas : d ∉ a :: seen := fun hc => (List.mem_cons.1 hc).elim hda hd
          simp only [Aurum.collectDatesAux]
          rw [if_neg hdas, if_neg hd,
            List.erase_cons_tail (by simpa using hda)]
          refine congrArg (d :: ·) ?_
          rw [collect_seen_ext rest (d :: a :: seen) (a :: d :: seen)
            (fun x => by simp; tauto)]
          exact ih a (d :: seen)

theorem sortDesc_sorted (l : List ℤ) : (Aurum.sortDesc l).Sorted (· ≥ ·) :=
  List.sorted_insertionSort _ l

theorem sortDesc_perm (l : List ℤ) : (Aurum.sortDesc l).Perm l :=
  List.perm_insertionSort _ l

theorem sortDesc_congr {l₁ l₂ : List ℤ} (h : l₁.Perm l₂) :
    Aurum.sortDesc l₁ = Aurum.sortDesc l₂ :=
  List.eq_of_perm_of_sorted (((sortDesc_perm l₁).trans h).trans (sortDesc_perm l₂).symm)
    (sortDesc_sorted l₁) (sortDesc_sorted l₂)

theorem walk_orderedInsert :
    ∀ (L : List ℤ) (e : ℤ) (s : Nat) (d : ℤ), e < d →
      Aurum.walk e s (List.orderedInsert (· ≥ ·) d L) = Aurum.walk e s L := by
  intro L
  induction L with
  | nil =>
    intro e s d hd
    simp only [List.orderedInsert, Aurum.walk]
    rw [if_neg (by omega : ¬ d = e), if_pos hd]
  | cons x xs ih =>
    intro e s d hd
    simp only [List.orderedInsert]
    by_cases hxd : d ≥ x
    · rw [if_pos hxd]
      conv_lhs => rw [Aurum.walk]
      rw [if_neg (by omega : ¬ d = e), if_pos hd]
    · rw [if_neg hxd]
      conv_lhs => rw [Aurum.walk]
      conv_rhs => rw [Aurum.walk]
      by_cases hxe : x = e
      · rw [if_pos hxe, if_pos hxe]
        exact ih (e - 1) (s + 1) d (by omega)
      · rw [if_neg hxe, if_neg hxe]
        by_cases hex : e < x
        · rw [if_pos hex, if_pos hex]
          exact ih e s d hd
        · rw [if_neg hex, if_neg hex]

theorem walk_single_gt (today d : ℤ) (h : today < d) : Aurum.walk today 0 [d] = 0 := by
  rw [Aurum.walk, if_neg (by omega : ¬ d = today), if_pos h]
  rfl

theorem descRun_mem : ∀ (n : Nat) (e x : ℤ), x ∈ Aurum.descRun e n ↔ (e - n < x ∧ x ≤ e) := by
  intro n
  induction n with
  | zero => intro e x; simp [Aurum.descRun]
  | succ m ih =>
    intro e x
    simp only [Aurum.descRun, List.mem_cons, ih (e - 1) x]
    omega

theorem descRun_sorted : ∀ (n : Nat) (e : ℤ), (Aurum.descRun e n).Sorted (· ≥ ·) := by
  intro n
  induction n with
  | zero => intro e; simp [Aurum.descRun]
  | succ m ih =>
    intro e
    rw [Aurum.descRun]
    refine List.sorted_cons.2 ⟨fun b hb => ?_, ih (e - 1)⟩
    have := (descRun_mem m (e - 1) b).1 hb
    omega

theorem descRun_nodup : ∀ (n : Nat) (e : ℤ), (Aurum.descRun e n).Nodup := by
  intro n
  induction n with
  | zero => intro e; simp [Aurum.descRun]
  | succ m ih =>
    intro e
    rw [Aurum.descRun]
    refine List.nodup_cons.2 ⟨fun hc => ?_, ih (e - 1)⟩
    have := (descRun_mem m (e - 1) e).1 hc
    omega

theorem walk_descRun : ∀ (n : Nat) (e : ℤ) (s : Nat),
    Aurum.walk e s (Aurum.descRun e n) = s + n := by
  intro n
  induction n with
  | zero => intro e s; simp [Aurum.descRun, Aurum.walk]
  | succ m ih =>
    intro e s
    rw [Aurum.descRun, Aurum.walk, if_pos rfl, ih (e - 1) (s + 1)]
    omega

theorem streakOfRows_days (today : ℤ) (rows : List (Option ℤ)) :
    (Aurum.streakOfRows today rows).streak_days
      = if (Aurum.collectDates rows).isEmpty then 0
        else Aurum.walk today 0 (Aurum.sortDesc (Aurum.collectDates rows)) := by
  by_cases h0 : rows.isEmpty
  · have hr : rows = [] := by cases rows with
      | nil => rfl
      | cons a l => simp at h0
    subst hr
    rfl
  · have h0' : rows.isEmpty = false := by
      revert h0; cases rows.isEmpty <;> simp
    simp only [Aurum.streakOfRows, h0', Bool.false_eq_true, if_false]
    by_cases hu : (Aurum.collectDates rows).isEmpty
    · simp [hu]
    · have hu' : (Aurum.collectDates rows).isEmpty = false := by
        revert hu; cases (Aurum.collectDates rows).isEmpty <;> simp
      simp [hu']

theorem streak_rows_future (today d : ℤ) (rows : List (Option ℤ)) (hd : today < d) :
    (Aurum.streakOfRows today (some d :: rows)).streak_days
      = (Aurum.streakOfRows today rows).streak_days := by
  have hu' : Aurum.collectDates (some d :: rows)
      = d :: (Aurum.collectDates rows).erase d := by
    show Aurum.collectDatesAux [] (some d :: rows) = _
    simp only [Aurum.collectDatesAux]
    rw [if_neg (List.not_mem_nil d), collect_cons_seen rows d []]
    rfl
  rw [streakOfRows_days, streakOfRows_days, hu']
  simp only [List.isEmpty_cons, Bool.false_eq_true, if_false]
  by_cases hue : (Aurum.collectDates rows).isEmpty
  · have hru : Aurum.collectDates rows = [] := by
      revert hue; cases h : Aurum.collectDates rows <;> simp
    rw [hru]
    simp only [List.erase_nil, List.isEmpty_nil, if_true]
    show Aurum.walk today 0 [d] = 0
    exact walk_single_gt today d hd
  · have hue' : (Aurum.collectDates rows).isEmpty = false := by
      revert hue; cases (Aurum.collectDates rows).isEmpty <;> simp
    rw [hue']
    simp only [Bool.false_eq_true, if_false]
    by_cases hdu : d ∈ Aurum.collectDates rows
    · rw [sortDesc_congr ((List.perm_cons_erase hdu).symm)]
    · rw [List.erase_of_not_mem hdu]
      have hins : Aurum.sortDesc (d :: Aurum.collectDates rows)
          = List.orderedInsert (· ≥ ·) d (Aurum.sortDesc (Aurum.collectDates rows)) := rfl
      rw [hins, walk_orderedInsert _ _ _ _ hd]

/-- C2: for an action history whose successful, parseable dates are exactly
today and the prior N−1 consecutive days (no gaps), `get_action_streak`
returns `streak_days = N`: the walk starts at today and increments on each
expected date present. -/
theorem c2_consecutive_streak (today : ℤ) (N : Nat) (st : Aurum.Store)
    (hN : 0 < N)
    (hcover : ∀ x : ℤ, some x ∈ Aurum.successDates st ↔ (today - N < x ∧ x ≤ today)) :
    (Aurum.get_action_streak today st).streak_days = N := by
  have humem : ∀ x : ℤ, x ∈ Aurum.collectDates (Aurum.successDates st)
      ↔ (today - N < x ∧ x ≤ today) := by
    intro x
    show x ∈ Aurum.collectDatesAux [] (Aurum.successDates st) ↔ _
    rw [collect_mem]
    simp [hcover x]
  have hu : (Aurum.collectDates (Aurum.successDates st)).isEmpty = false := by
    have hmem : today ∈ Aurum.collectDates (Aurum.successDates st) :=
      (humem today).2 (by constructor <;> omega)
    cases hcd : Aurum.collectDates (Aurum.successDates st) with
    | nil => rw [hcd] at hmem; simp at hmem
    | cons a l => rfl
  have hsorteq : Aurum.sortDesc (Aurum.collectDates (Aurum.successDates st))
      = Aurum.descRun today N := by
    refine List.eq_of_perm_of_sorted ?_ (sortDesc_sorted _) (descRun_sorted N today)
    refine (List.perm_ext_iff_of_nodup ?_ (descRun_nodup N today)).2 fun a => ?_
    · exact ((sortDesc_perm _).nodup_iff).2 (collect_nodup _ _)
    · rw [List.Perm.mem_iff (sortDesc_perm _), humem a, descRun_mem N today a]
  rw [Aurum.get_action_streak, streakOfRows_days, hu]
  simp only [Bool.false_eq_true, if_false]
  rw [hsorteq, walk_descRun N today 0]
  omega

/-- C2 witness: three successful actions on days 8, 9, 10 with today = 10
yield a streak of 3. -/
theorem c2_consecutive_streak_witness :
    (Aurum.get_action_streak 10
      ⟨[], [⟨some 10, true⟩, ⟨some 9, true⟩, ⟨some 8, true⟩], []⟩).streak_days = 3 := by
  refine c2_consecutive_streak 10 3 _ (by decide) fun x => ?_
  have hr : Aurum.successDates ⟨[], [⟨some 10, true⟩, ⟨some 9, true⟩, ⟨some 8, true⟩], []⟩
      = [some 10, some 9, some 8] := rfl
  rw [hr]
  simp only [List.mem_cons, List.not_mem_nil, or_false, Option.some.injEq]
  omega

/-- C3 counterexample: a future-dated success *does* alter
`last_action_date` — with today = 0, adding a success dated day 1 on top of
a success dated day 0 moves `last_action_date` from day 0 (the genuinely
latest past-or-present date) to the future day 1, because the code reads
`unique_dates[0]` after the descending sort. -/
theorem c3_last_date_counterexample :
    (Aurum.get_action_streak 0 ⟨[], [⟨some 1, true⟩, ⟨some 0, true⟩], []⟩).last_action_date
        = some 1
    ∧ (Aurum.get_action_streak 0 ⟨[], [⟨some 0, true⟩], []⟩).last_action_date = some 0
    ∧ (Aurum.get_action_streak 0 ⟨[], [⟨some 1, true⟩, ⟨some 0, true⟩], []⟩).streak_days
        = (Aurum.get_action_streak 0 ⟨[], [⟨some 0, true⟩], []⟩).streak_days := by
  decide

/-- C3 (amended): a successful action dated strictly after today does not
increase `streak_days` and does not break the backward walk (the streak is
the same as without it), and a history whose only successful action is
future-dated yields `streak_days = 0`; however `last_action_date` is the
maximum recorded date, which can be the future date itself. -/
theorem c3_future_dated (today d : ℤ) (mh : List Aurum.MoodEntry)
    (logs : List Aurum.ActionRow) (acts : List Aurum.ActuationRecord)
    (hd : today < d) :
    (Aurum.get_action_streak today ⟨mh, ⟨some d, true⟩ :: logs, acts⟩).streak_days
        = (Aurum.get_action_streak today ⟨mh, logs, acts⟩).streak_days
    ∧ (Aurum.get_action_streak today ⟨mh, [⟨some d, true⟩], acts⟩).streak_days = 0 := by
  constructor
  · have h1 : Aurum.get_action_streak today ⟨mh, ⟨some d, true⟩ :: logs, acts⟩
        = Aurum.streakOfRows today (some d :: Aurum.successDates ⟨mh, logs, acts⟩) := rfl
    rw [h1, Aurum.get_action_streak]
    exact streak_rows_future today d _ hd
  · show (Aurum.streakOfRows today [some d]).streak_days = 0
    show Aurum.walk today 0 [d] = 0
    exact walk_single_gt today d hd

/-- C3 witness: with today = 0 and a success on day 0, prepending a success
dated day 1 leaves the streak unchanged, and a lone success dated day 1
gives streak 0. -/
theorem c3_future_dated_witness :
    (Aurum.get_action_streak 0 ⟨[], ⟨some 1, true⟩ :: [⟨some 0, true⟩], []⟩).streak_days
        = (Aurum.get_action_streak 0 ⟨[], [⟨some 0, true⟩], []⟩).streak_days
    ∧ (Aurum.get_action_streak 0 ⟨[], [⟨some 1, true⟩], []⟩).streak_days = 0 :=
  c3_future_dated 0 1 [] [⟨some 0, true⟩] [] (by decide)
